import Mathlib

/-!
Shallow embedding of the configuration-loading and log-construction code of
the static-ct submission front end, together with a spec-modelled fragment
of its submission coordinator, and theorems settling the frozen claims.

The embedded source lives in two near-duplicate Go files: ctlog.go
(package sctfe, feeding internal/scti) and an older sctfe copy.  The map
stringToKeyUsage, the helper parseOIDs and the extended-key-usage loop are
token-for-token identical in the two files, so they are embedded once and
shared; the two top-level loaders and the two log constructors are embedded
separately, each following its own file.
-/

namespace StaticCT

/-- Go time.Time instants, abstracted as integer nanoseconds since the
epoch.  Go t1.Before(t2) is strict comparison t1 < t2. -/
abbrev Time := Int

/-- Abstract contents of a parsed PEM root pool (x509util.PEMCertPool).
No claim inspects the pool, only whether loading it succeeded. -/
abbrev RootPool := List String

/-- Abstraction of x509util.NewPEMCertPool followed by
AppendCertsFromPEMFile: reading and parsing the roots PEM file.  Both
configuration-loading paths call the same library function on the
configured path, so both embeddings take the same function. -/
abbrev ReadRoots := String → Except String RootPool

/-- Go strings.Split for a single-character separator, on the character
list of the string: the only separators the embedded code passes are ","
and ".".  Split of the empty string is the one-element list of the empty
string, as in Go. -/
def splitChar (sep : Char) : List Char → List (List Char)
  | [] => [[]]
  | c :: rest =>
    let r := splitChar sep rest
    if c = sep then [] :: r
    else
      match r with
      | [] => [[c]]
      | g :: gs => (c :: g) :: gs

/-- Go strings.Split(s, sep) for a single-character separator. -/
def goSplit (s : String) (sep : Char) : List String :=
  (splitChar sep s.data).map (fun g => String.mk g)

/-- x509.ExtKeyUsage values named by the stringToKeyUsage map. -/
inductive ExtKeyUsage where
  | Any
  | ServerAuth
  | ClientAuth
  | CodeSigning
  | EmailProtection
  | IPSECEndSystem
  | IPSECTunnel
  | IPSECUser
  | TimeStamping
  | OCSPSigning
  | MicrosoftServerGatedCrypto
  | NetscapeServerGatedCrypto
deriving DecidableEq, Repr

/-- The stringToKeyUsage map, identical in ctlog.go and the sctfe copy:
map lookup returns (value, ok). -/
def stringToKeyUsage (s : String) : Option ExtKeyUsage :=
  match s with
  | "Any" => some ExtKeyUsage.Any
  | "ServerAuth" => some ExtKeyUsage.ServerAuth
  | "ClientAuth" => some ExtKeyUsage.ClientAuth
  | "CodeSigning" => some ExtKeyUsage.CodeSigning
  | "EmailProtection" => some ExtKeyUsage.EmailProtection
  | "IPSECEndSystem" => some ExtKeyUsage.IPSECEndSystem
  | "IPSECTunnel" => some ExtKeyUsage.IPSECTunnel
  | "IPSECUser" => some ExtKeyUsage.IPSECUser
  | "TimeStamping" => some ExtKeyUsage.TimeStamping
  | "OCSPSigning" => some ExtKeyUsage.OCSPSigning
  | "MicrosoftServerGatedCrypto" => some ExtKeyUsage.MicrosoftServerGatedCrypto
  | "NetscapeServerGatedCrypto" => some ExtKeyUsage.NetscapeServerGatedCrypto
  | _ => none

/-- Go strconv.Atoi: an optional sign, then one or more decimal digits,
rejecting anything else and values outside the 64-bit int range. -/
def atoi (s : String) : Option Int :=
  match s.data with
  | [] => none
  | c :: cs =>
    let signDigits : Bool × List Char :=
      if c = '+' then (false, cs)
      else if c = '-' then (true, cs)
      else (false, c :: cs)
    let neg := signDigits.1
    let ds := signDigits.2
    if ds = [] then none
    else if ds.all (fun ch => ch.isDigit) then
      let n : Nat := ds.foldl (fun acc ch => acc * 10 + (ch.toNat - 48)) 0
      let v : Int := if neg then -(n : Int) else (n : Int)
      if -(2 ^ 63) ≤ v ∧ v ≤ 2 ^ 63 - 1 then some v else none
    else none

/-- asn1.ObjectIdentifier: a slice of machine integers. -/
abbrev ObjectIdentifier := List Int

/-- The inner loop of parseOIDs: strconv.Atoi on each dot-separated arc,
aborting on the first failure. -/
def parseOIDArcs : List String → Option ObjectIdentifier
  | [] => some []
  | n :: rest =>
    match atoi n with
    | none => none
    | some p =>
      match parseOIDArcs rest with
      | none => none
      | some oid => some (p :: oid)

/-- parseOIDs, identical in ctlog.go and the sctfe copy: each input string
is split on "." and every arc must parse with strconv.Atoi. -/
def parseOIDs : List String → Option (List ObjectIdentifier)
  | [] => some []
  | s :: rest =>
    match parseOIDArcs (goSplit s '.') with
    | none => none
    | some oid =>
      match parseOIDs rest with
      | none => none
      | some ret => some (oid :: ret)

/-- The extended-key-usage loop, identical in both files: walk the split
list, look each name up in stringToKeyUsage, fail on a miss, and on the
first "Any" discard the accumulated list and stop with an empty (nil)
allowlist. -/
def processExtKeyUsages : List String → List ExtKeyUsage → Except String (List ExtKeyUsage)
  | [], acc => Except.ok acc
  | kuStr :: rest, acc =>
    match stringToKeyUsage kuStr with
    | some ku =>
      if ku = ExtKeyUsage.Any then Except.ok []
      else processExtKeyUsages rest (acc ++ [ku])
    | none => Except.error ("unknown extended key usage: " ++ kuStr)

/-- Both files compute the list of EKU names the same way: empty when the
configured string is empty, otherwise strings.Split on ",". -/
def ekuList (s : String) : List String :=
  if s = "" then [] else goSplit s ','

/-- The shared time-interval guard: both NotAfter bounds set and the limit
strictly before the start. -/
def intervalBad (start limit : Option Time) : Bool :=
  match start, limit with
  | some s, some l => decide (l < s)
  | _, _ => false

/-- ChainValidationConfig of ctlog.go. -/
structure ChainValidationConfig where
  RootsPEMFile : String
  RejectExpired : Bool
  RejectUnexpired : Bool
  ExtKeyUsages : String
  RejectExtensions : String
  NotAfterStart : Option Time
  NotAfterLimit : Option Time
deriving DecidableEq, Repr

/-- CertValidationConfig of the sctfe copy (same fields, RootsPemFile
spelled differently). -/
structure CertValidationConfig where
  RootsPemFile : String
  RejectExpired : Bool
  RejectUnexpired : Bool
  ExtKeyUsages : String
  RejectExtensions : String
  NotAfterStart : Option Time
  NotAfterLimit : Option Time
deriving DecidableEq, Repr

/-- scti.ChainValidationOpts as populated by ctlog.go. -/
structure ChainValidationOpts where
  TrustedRoots : RootPool
  RejectExpired : Bool
  RejectUnexpired : Bool
  NotAfterStart : Option Time
  NotAfterLimit : Option Time
  ExtKeyUsages : List ExtKeyUsage
  RejectExtIds : List ObjectIdentifier
deriving DecidableEq, Repr

/-- CertValidationOpts as populated by the sctfe copy (unexported fields). -/
structure CertValidationOpts where
  trustedRoots : RootPool
  rejectExpired : Bool
  rejectUnexpired : Bool
  notAfterStart : Option Time
  notAfterLimit : Option Time
  extKeyUsages : List ExtKeyUsage
  rejectExtIds : List ObjectIdentifier
deriving DecidableEq, Repr

/-- newCertValidationOpts of ctlog.go.  Go nil slices are embedded as [];
the wrapped system error messages keep only their fixed prefixes. -/
def newCertValidationOpts (rd : ReadRoots) (cfg : ChainValidationConfig) :
    Except String ChainValidationOpts :=
  if cfg.RootsPEMFile = "" then Except.error ("empty rootsPemFile")
  else
    match rd cfg.RootsPEMFile with
    | Except.error e => Except.error ("failed to read trusted roots: " ++ e)
    | Except.ok roots =>
      if cfg.RejectExpired && cfg.RejectUnexpired then
        Except.error ("configuration would reject all certificates")
      else if intervalBad cfg.NotAfterStart cfg.NotAfterLimit then
        Except.error ("limit before start")
      else
        match processExtKeyUsages (ekuList cfg.ExtKeyUsages) [] with
        | Except.error e => Except.error e
        | Except.ok ekus =>
          if cfg.RejectExtensions = "" then
            Except.ok
              { TrustedRoots := roots
                RejectExpired := cfg.RejectExpired
                RejectUnexpired := cfg.RejectUnexpired
                NotAfterStart := cfg.NotAfterStart
                NotAfterLimit := cfg.NotAfterLimit
                ExtKeyUsages := ekus
                RejectExtIds := [] }
          else
            match parseOIDs (goSplit cfg.RejectExtensions ',') with
            | none => Except.error ("failed to parse RejectExtensions")
            | some ids =>
              Except.ok
                { TrustedRoots := roots
                  RejectExpired := cfg.RejectExpired
                  RejectUnexpired := cfg.RejectUnexpired
                  NotAfterStart := cfg.NotAfterStart
                  NotAfterLimit := cfg.NotAfterLimit
                  ExtKeyUsages := ekus
                  RejectExtIds := ids }

/-- NewCertValidationOpts of the sctfe copy.  It checks
len(cfg.RootsPemFile) == 0 where ctlog.go compares with "", and its error
strings differ; everything else mirrors its own file. -/
def NewCertValidationOpts (rd : ReadRoots) (cfg : CertValidationConfig) :
    Except String CertValidationOpts :=
  if cfg.RootsPemFile.length = 0 then Except.error ("empty rootsPemFile")
  else
    match rd cfg.RootsPemFile with
    | Except.error e => Except.error ("failed to read trusted roots: " ++ e)
    | Except.ok roots =>
      if cfg.RejectExpired && cfg.RejectUnexpired then
        Except.error ("rejecting all certificates")
      else if intervalBad cfg.NotAfterStart cfg.NotAfterLimit then
        Except.error ("limit before start")
      else
        match processExtKeyUsages (ekuList cfg.ExtKeyUsages) [] with
        | Except.error e => Except.error e
        | Except.ok ekus =>
          if cfg.RejectExtensions = "" then
            Except.ok
              { trustedRoots := roots
                rejectExpired := cfg.RejectExpired
                rejectUnexpired := cfg.RejectUnexpired
                notAfterStart := cfg.NotAfterStart
                notAfterLimit := cfg.NotAfterLimit
                extKeyUsages := ekus
                rejectExtIds := [] }
          else
            match parseOIDs (goSplit cfg.RejectExtensions ',') with
            | none => Except.error ("failed to parse RejectExtensions")
            | some ids =>
              Except.ok
                { trustedRoots := roots
                  rejectExpired := cfg.RejectExpired
                  rejectUnexpired := cfg.RejectUnexpired
                  notAfterStart := cfg.NotAfterStart
                  notAfterLimit := cfg.NotAfterLimit
                  extKeyUsages := ekus
                  rejectExtIds := ids }

/-- Success test for Except results. -/
def exceptOk {ε α : Type} : Except ε α → Bool
  | Except.ok _ => true
  | Except.error _ => false

/-- The kind of public key a crypto.Signer exposes; the Go code type
switches on *ecdsa.PublicKey against everything else. -/
inductive PublicKey where
  | ecdsa
  | rsa
  | ed25519
deriving DecidableEq, Repr

/-- A crypto.Signer, reduced to the public key type the constructors
inspect. -/
structure Signer where
  pub : PublicKey
deriving DecidableEq, Repr

/-- scti.Log as populated by newLog: origin plus the validation options.
The SignSCT closure and the storage handle are omitted: the checkpoint
signer and storage setup steps call klog.Exitf on failure (process abort,
never an error return), so as an error-returning function newLog succeeds
once the validation options are built. -/
structure Log where
  Origin : String
  ChainValidationOpts : ChainValidationOpts
deriving DecidableEq, Repr

/-- sctfe.Log of the copy, same reduction. -/
structure SctfeLog where
  Origin : String
  CertValidationOpts : CertValidationOpts
deriving DecidableEq, Repr

/-- newLog of ctlog.go: empty origin, missing signer and non-ECDSA keys
are rejected before the validation options are built. -/
def newLog (rd : ReadRoots) (origin : String) (signer : Option Signer)
    (cfg : ChainValidationConfig) : Except String Log :=
  if origin = "" then Except.error ("empty origin")
  else
    match signer with
    | none => Except.error ("empty signer")
    | some s =>
      match s.pub with
      | PublicKey.ecdsa =>
        match newCertValidationOpts rd cfg with
        | Except.error e => Except.error ("invalid cert validation config: " ++ e)
        | Except.ok vlc => Except.ok { Origin := origin, ChainValidationOpts := vlc }
      | _ => Except.error ("unsupported key type")

/-- NewLog of the sctfe copy, structurally identical to newLog. -/
def NewLog (rd : ReadRoots) (origin : String) (signer : Option Signer)
    (cfg : CertValidationConfig) : Except String SctfeLog :=
  if origin = "" then Except.error ("empty origin")
  else
    match signer with
    | none => Except.error ("empty signer")
    | some s =>
      match s.pub with
      | PublicKey.ecdsa =>
        match NewCertValidationOpts rd cfg with
        | Except.error e => Except.error ("invalid cert validation config: " ++ e)
        | Except.ok vlc => Except.ok { Origin := origin, CertValidationOpts := vlc }
      | _ => Except.error ("unsupported key type")

/-- Renaming a sctfe configuration into a ctlog.go configuration; the two
records carry the same fields. -/
def chainCfgOfCertCfg (cfg : CertValidationConfig) : ChainValidationConfig :=
  { RootsPEMFile := cfg.RootsPemFile
    RejectExpired := cfg.RejectExpired
    RejectUnexpired := cfg.RejectUnexpired
    ExtKeyUsages := cfg.ExtKeyUsages
    RejectExtensions := cfg.RejectExtensions
    NotAfterStart := cfg.NotAfterStart
    NotAfterLimit := cfg.NotAfterLimit }

/-- The reverse renaming. -/
def certCfgOfChainCfg (cfg : ChainValidationConfig) : CertValidationConfig :=
  { RootsPemFile := cfg.RootsPEMFile
    RejectExpired := cfg.RejectExpired
    RejectUnexpired := cfg.RejectUnexpired
    ExtKeyUsages := cfg.ExtKeyUsages
    RejectExtensions := cfg.RejectExtensions
    NotAfterStart := cfg.NotAfterStart
    NotAfterLimit := cfg.NotAfterLimit }

/-- Agreement of the two validation-options records on every field the
claims compare: expiry flags, NotAfter bounds, EKU allowlist and rejected
extension OIDs. -/
def optsAgree (a : ChainValidationOpts) (b : CertValidationOpts) : Prop :=
  a.RejectExpired = b.rejectExpired ∧
  a.RejectUnexpired = b.rejectUnexpired ∧
  a.NotAfterStart = b.notAfterStart ∧
  a.NotAfterLimit = b.notAfterLimit ∧
  a.ExtKeyUsages = b.extKeyUsages ∧
  a.RejectExtIds = b.rejectExtIds

/-- A string carries surrounding whitespace when its first or last
character is whitespace. -/
def hasOuterWhitespace (s : String) : Bool :=
  (match s.data.head? with
   | some c => c.isWhitespace
   | none => false) ||
  (match s.data.getLast? with
   | some c => c.isWhitespace
   | none => false)

instance {ε α : Type} [DecidableEq ε] [DecidableEq α] : DecidableEq (Except ε α) :=
  fun x y =>
    match x, y with
    | Except.ok v, Except.ok w =>
      if h : v = w then isTrue (by rw [h])
      else isFalse (by intro hc; cases hc; exact h rfl)
    | Except.error v, Except.error w =>
      if h : v = w then isTrue (by rw [h])
      else isFalse (by intro hc; cases hc; exact h rfl)
    | Except.ok _, Except.error _ => isFalse (by intro hc; cases hc)
    | Except.error _, Except.ok _ => isFalse (by intro hc; cases hc)

/-!
The submission pipeline of the claims C7 and C8 lives in internal/scti,
which is not among the staged sources (only its tests are).  The
definitions below are therefore modelled from the specification text, as
their doc comments record.
-/

/-- A parsed X.509 certificate, reduced to what these claims inspect:
whether the CT poison extension is present and whether it is critical. -/
structure Cert where
  hasPoison : Bool
  poisonCritical : Bool
deriving DecidableEq, Repr

/-- The error kinds of the specification (sections 4.C, 4.G and 7) that
the modelled pipeline can raise. -/
inductive CTError where
  | malformedRequest
  | malformedChain
  | unknownIssuer
  | badSignature
  | notAPrecert
  | isAPrecert
  | policyRejected
deriving DecidableEq, Repr

/-- A chain element after base64 decoding: either a certificate DER
parsing accepts, or bytes it rejects. -/
inductive RawCert where
  | parsed (c : Cert)
  | unparseable
deriving DecidableEq, Repr

/-- An element of the JSON chain array: a base64 string decoding to a
parseable certificate, one decoding to unparseable bytes, or one that is
not valid base64 at all. -/
inductive BodyElem where
  | wellFormed (c : Cert)
  | badDER
  | badB64
deriving DecidableEq, Repr

/-- A POST body for add-chain and add-pre-chain: either not a well-formed
JSON object, or an object carrying a chain array. -/
inductive Body where
  | malformedJSON
  | chainReq (elems : List BodyElem)
deriving DecidableEq, Repr

/-- Base64 decoding of one chain element, as performed while
unmarshalling the JSON body; invalid base64 fails the whole request. -/
def decodeElem : BodyElem → Except CTError RawCert
  | BodyElem.wellFormed c => Except.ok (RawCert.parsed c)
  | BodyElem.badDER => Except.ok RawCert.unparseable
  | BodyElem.badB64 => Except.error CTError.malformedRequest

/-- Decoding of the whole chain array, aborting on the first failure. -/
def decodeAll : List BodyElem → Except CTError (List RawCert)
  | [] => Except.ok []
  | e :: rest =>
    match decodeElem e with
    | Except.error err => Except.error err
    | Except.ok r =>
      match decodeAll rest with
      | Except.error err => Except.error err
      | Except.ok rs => Except.ok (r :: rs)

/-- Modelled from the spec: step 1 of the submission coordinator (4.G),
whose code is not among the staged sources: parse the body as a JSON
object carrying a chain array of base64 DER strings, rejecting malformed
JSON and an empty chain as BadRequest. -/
def parseBody : Body → Except CTError (List RawCert)
  | Body.malformedJSON => Except.error CTError.malformedRequest
  | Body.chainReq elems =>
    if elems = [] then Except.error CTError.malformedRequest
    else decodeAll elems

/-- Modelled from the spec: step 1 of the chain validator (4.C): parse
all certificates, failing as MalformedChain on any parse error. -/
def parseCerts : List RawCert → Except CTError (List Cert)
  | [] => Except.ok []
  | RawCert.unparseable :: _ => Except.error CTError.malformedChain
  | RawCert.parsed c :: rest =>
    match parseCerts rest with
    | Except.error e => Except.error e
    | Except.ok cs => Except.ok (c :: cs)

/-- Modelled from the spec: step 6 of the chain validator (4.C): a
precert submission must carry the CT poison extension as critical, else
NotAPrecert; a regular submission must not carry it, else IsAPrecert. -/
def checkEntryType (isPrecert : Bool) (leaf : Cert) : Except CTError Unit :=
  if isPrecert then
    if leaf.hasPoison && leaf.poisonCritical then Except.ok ()
    else Except.error CTError.notAPrecert
  else
    if leaf.hasPoison then Except.error CTError.isAPrecert
    else Except.ok ()

/-- Modelled from the spec: the chain validator (4.C).  Steps 2 to 5
(chain building against the trust pool, signature checks, path length and
leaf policy) are abstracted as the buildChain argument, over which the
theorems quantify; the submitted leaf is the first certificate. -/
def validateChain (buildChain : List Cert → Except CTError (List Cert))
    (isPrecert : Bool) (raws : List RawCert) : Except CTError (List Cert) :=
  match parseCerts raws with
  | Except.error e => Except.error e
  | Except.ok [] => Except.error CTError.malformedChain
  | Except.ok (leaf :: rest) =>
    match buildChain (leaf :: rest) with
    | Except.error e => Except.error e
    | Except.ok chain =>
      match checkEntryType isPrecert leaf with
      | Except.error e => Except.error e
      | Except.ok _ => Except.ok chain

/-- The visible outcome of one submission: HTTP status, the SCT issued if
any, and whether an append was performed. -/
structure SubmissionResult (σ : Type) where
  status : Nat
  sct : Option σ
  appended : Bool
deriving DecidableEq

/-- Modelled from the spec: the submission coordinator (4.G).  Steps 3 to
7 (dedup, entry building, issuer persistence, append, SCT signing) are
reached only on a validated chain and are abstracted as the appendAndSign
argument standing for their composite effect; on any earlier failure the
request answers 400 with no append and no SCT. -/
def handleSubmission {σ : Type} (buildChain : List Cert → Except CTError (List Cert))
    (appendAndSign : List Cert → σ) (isPrecert : Bool) (body : Body) :
    SubmissionResult σ :=
  match parseBody body with
  | Except.error _ => { status := 400, sct := none, appended := false }
  | Except.ok raws =>
    match validateChain buildChain isPrecert raws with
    | Except.error _ => { status := 400, sct := none, appended := false }
    | Except.ok chain =>
      { status := 200, sct := some (appendAndSign chain), appended := true }

theorem string_length_zero_iff (s : String) : s.length = 0 ↔ s = "" := by
  cases s with
  | mk d =>
    cases d with
    | nil => exact ⟨fun _ => rfl, fun _ => rfl⟩
    | cons c cs =>
      constructor
      · intro h
        simp [String.length] at h
      · intro h
        exact List.noConfusion (congrArg String.data h)

theorem stringToKeyUsage_eq_any (s : String) (h : stringToKeyUsage s = some ExtKeyUsage.Any) :
    s = "Any" := by
  unfold stringToKeyUsage at h
  split at h <;> simp_all

theorem hasOuterWhitespace_unknown (s : String) (h : hasOuterWhitespace s = true) :
    stringToKeyUsage s = none := by
  cases hk : stringToKeyUsage s with
  | none => rfl
  | some k =>
    exfalso
    unfold stringToKeyUsage at hk
    split at hk <;> first
      | exact absurd h (by decide)
      | simp at hk

theorem processEKU_unknown_error (pre : List String) (name : String) (post : List String)
    (acc : List ExtKeyUsage) (h1 : stringToKeyUsage name = none) (h2 : "Any" ∉ pre) :
    ∃ e, processExtKeyUsages (pre ++ name :: post) acc = Except.error e := by
  induction pre generalizing acc with
  | nil =>
    exact ⟨"unknown extended key usage: " ++ name, by simp [processExtKeyUsages, h1]⟩
  | cons x xs ih =>
    have hx : x ≠ "Any" := fun hc => h2 (by simp [hc])
    have hxs : "Any" ∉ xs := fun hc => h2 (List.mem_cons_of_mem _ hc)
    cases hk : stringToKeyUsage x with
    | none =>
      exact ⟨"unknown extended key usage: " ++ x, by simp [processExtKeyUsages, hk]⟩
    | some k =>
      have hkne : ¬(k = ExtKeyUsage.Any) := fun hc => hx (stringToKeyUsage_eq_any x (hc ▸ hk))
      obtain ⟨e, he⟩ := ih (acc ++ [k]) hxs
      exact ⟨e, by simp [processExtKeyUsages, hk, hkne, he]⟩

theorem processEKU_any_nil (l : List String) :
    ∀ acc r, "Any" ∈ l → processExtKeyUsages l acc = Except.ok r → r = [] := by
  induction l with
  | nil => intro acc r hmem _; cases hmem
  | cons x xs ih =>
    intro acc r hmem hok
    simp only [processExtKeyUsages] at hok
    cases hk : stringToKeyUsage x with
    | none => simp [hk] at hok
    | some k =>
      simp only [hk] at hok
      by_cases hA : k = ExtKeyUsage.Any
      · rw [if_pos hA] at hok
        cases hok
        rfl
      · rw [if_neg hA] at hok
        rcases List.mem_cons.mp hmem with hxeq | hxs
        · subst hxeq
          have : stringToKeyUsage ("Any") = some ExtKeyUsage.Any := rfl
          rw [this] at hk
          cases hk
          exact absurd rfl hA
        · exact ih _ r hxs hok

theorem newCVO_ok_inv (rd : ReadRoots) (cfg : ChainValidationConfig) (v : ChainValidationOpts)
    (h : newCertValidationOpts rd cfg = Except.ok v) :
    v.RejectExpired = cfg.RejectExpired ∧ v.RejectUnexpired = cfg.RejectUnexpired ∧
    v.NotAfterStart = cfg.NotAfterStart ∧ v.NotAfterLimit = cfg.NotAfterLimit ∧
    (cfg.RejectExpired && cfg.RejectUnexpired) = false ∧
    intervalBad cfg.NotAfterStart cfg.NotAfterLimit = false ∧
    processExtKeyUsages (ekuList cfg.ExtKeyUsages) [] = Except.ok v.ExtKeyUsages ∧
    ((cfg.RejectExtensions = "" ∧ v.RejectExtIds = []) ∨
     (∃ ids, parseOIDs (goSplit cfg.RejectExtensions ',') = some ids ∧ v.RejectExtIds = ids)) := by
  have hflags : (cfg.RejectExpired && cfg.RejectUnexpired) = false := by
    cases hb : (cfg.RejectExpired && cfg.RejectUnexpired) with
    | false => rfl
    | true =>
      exfalso
      unfold newCertValidationOpts at h
      split at h
      · simp at h
      · split at h
        · simp at h
        · simp [hb] at h
  have hint : intervalBad cfg.NotAfterStart cfg.NotAfterLimit = false := by
    cases hb : intervalBad cfg.NotAfterStart cfg.NotAfterLimit with
    | false => rfl
    | true =>
      exfalso
      unfold newCertValidationOpts at h
      split at h
      · simp at h
      · split at h
        · simp at h
        · split at h
          · simp at h
          · simp [hb] at h
  unfold newCertValidationOpts at h
  split at h
  · simp at h
  · split at h
    · simp at h
    · rw [if_neg (by simp [hflags])] at h
      rw [if_neg (by simp [hint])] at h
      split at h
      · simp at h
      · rename_i ekus hek
        split at h
        · rename_i hre
          cases h
          exact ⟨rfl, rfl, rfl, rfl, hflags, hint, hek, Or.inl ⟨hre, rfl⟩⟩
        · split at h
          · simp at h
          · rename_i ids hoid
            cases h
            exact ⟨rfl, rfl, rfl, rfl, hflags, hint, hek, Or.inr ⟨ids, hoid, rfl⟩⟩

theorem exceptOk_false_of_ne {ε α : Type} (x : Except ε α) (h : ∀ v, x ≠ Except.ok v) :
    exceptOk x = false := by
  cases x with
  | error e => rfl
  | ok v => exact absurd rfl (h v)

theorem newCVO_fail_of_eku (rd : ReadRoots) (cfg : ChainValidationConfig) (e : String)
    (he : processExtKeyUsages (ekuList cfg.ExtKeyUsages) [] = Except.error e) :
    exceptOk (newCertValidationOpts rd cfg) = false := by
  refine exceptOk_false_of_ne _ (fun v hv => ?_)
  have hinv := newCVO_ok_inv rd cfg v hv
  rw [hinv.2.2.2.2.2.2.1] at he
  simp at he

theorem newCVO_fail_of_interval (rd : ReadRoots) (cfg : ChainValidationConfig)
    (hb : intervalBad cfg.NotAfterStart cfg.NotAfterLimit = true) :
    exceptOk (newCertValidationOpts rd cfg) = false := by
  refine exceptOk_false_of_ne _ (fun v hv => ?_)
  have hinv := newCVO_ok_inv rd cfg v hv
  rw [hinv.2.2.2.2.2.1] at hb
  simp at hb

theorem newCVO_fail_of_flags (rd : ReadRoots) (cfg : ChainValidationConfig)
    (h1 : cfg.RejectExpired = true) (h2 : cfg.RejectUnexpired = true) :
    exceptOk (newCertValidationOpts rd cfg) = false := by
  refine exceptOk_false_of_ne _ (fun v hv => ?_)
  have hinv := newCVO_ok_inv rd cfg v hv
  rw [h1, h2] at hinv
  simp at hinv

theorem cvo_agree_aux (rd : ReadRoots) (cfg : CertValidationConfig) :
    (exceptOk (newCertValidationOpts rd (chainCfgOfCertCfg cfg)) = false ∧
     exceptOk (NewCertValidationOpts rd cfg) = false) ∨
    (∃ a b, newCertValidationOpts rd (chainCfgOfCertCfg cfg) = Except.ok a ∧
            NewCertValidationOpts rd cfg = Except.ok b ∧ optsAgree a b) := by
  obtain ⟨file, rexp, runexp, ekus, rext, nas, nal⟩ := cfg
  unfold newCertValidationOpts NewCertValidationOpts chainCfgOfCertCfg
  simp only
  by_cases h1 : file = ""
  · subst h1
    left
    exact ⟨rfl, rfl⟩
  · rw [if_neg h1, if_neg (fun hl => h1 ((string_length_zero_iff file).mp hl))]
    cases hrd : rd file with
    | error e => left; exact ⟨rfl, rfl⟩
    | ok roots =>
      dsimp only
      by_cases h2 : (rexp && runexp) = true
      · rw [if_pos h2, if_pos h2]
        left
        exact ⟨rfl, rfl⟩
      · rw [if_neg h2, if_neg h2]
        by_cases h3 : intervalBad nas nal = true
        · rw [if_pos h3, if_pos h3]
          left
          exact ⟨rfl, rfl⟩
        · rw [if_neg h3, if_neg h3]
          cases hek : processExtKeyUsages (ekuList ekus) [] with
          | error e => left; exact ⟨rfl, rfl⟩
          | ok eks =>
            dsimp only
            by_cases h4 : rext = ""
            · rw [if_pos h4, if_pos h4]
              right
              exact ⟨_, _, rfl, rfl, rfl, rfl, rfl, rfl, rfl, rfl⟩
            · rw [if_neg h4, if_neg h4]
              cases hoid : parseOIDs (goSplit rext ',') with
              | none => left; exact ⟨rfl, rfl⟩
              | some ids =>
                dsimp only
                right
                exact ⟨_, _, rfl, rfl, rfl, rfl, rfl, rfl, rfl, rfl⟩

theorem NewCVO_fail_transfer (rd : ReadRoots) (cfg : CertValidationConfig)
    (h : exceptOk (newCertValidationOpts rd (chainCfgOfCertCfg cfg)) = false) :
    exceptOk (NewCertValidationOpts rd cfg) = false := by
  rcases cvo_agree_aux rd cfg with ⟨_, hf⟩ | ⟨a, b, ha, hb, _⟩
  · exact hf
  · rw [ha] at h
    simp [exceptOk] at h

theorem NewCVO_ok_transfer (rd : ReadRoots) (cfg : CertValidationConfig)
    (b : CertValidationOpts) (h : NewCertValidationOpts rd cfg = Except.ok b) :
    ∃ a, newCertValidationOpts rd (chainCfgOfCertCfg cfg) = Except.ok a ∧ optsAgree a b := by
  rcases cvo_agree_aux rd cfg with ⟨_, hf⟩ | ⟨a, b2, ha, hb, hag⟩
  · rw [h] at hf
    simp [exceptOk] at hf
  · rw [h] at hb
    cases hb
    exact ⟨a, ha, hag⟩

theorem newCVO_fail_of_oids (rd : ReadRoots) (cfg : ChainValidationConfig)
    (hne : cfg.RejectExtensions ≠ "")
    (h : parseOIDs (goSplit cfg.RejectExtensions ',') = none) :
    exceptOk (newCertValidationOpts rd cfg) = false := by
  refine exceptOk_false_of_ne _ (fun v hv => ?_)
  rcases (newCVO_ok_inv rd cfg v hv).2.2.2.2.2.2.2 with ⟨hre, _⟩ | ⟨ids, hoid, _⟩
  · exact hne hre
  · rw [h] at hoid
    simp at hoid

theorem cvo_fail_of_unknown_entry (rd : ReadRoots) (cfg : ChainValidationConfig)
    (pre post : List String) (name : String)
    (hne : cfg.ExtKeyUsages ≠ "")
    (hsplit : goSplit cfg.ExtKeyUsages ',' = pre ++ name :: post)
    (hunknown : stringToKeyUsage name = none)
    (hnoany : "Any" ∉ pre) :
    exceptOk (newCertValidationOpts rd cfg) = false ∧
    exceptOk (NewCertValidationOpts rd (certCfgOfChainCfg cfg)) = false := by
  have hek : ∃ e, processExtKeyUsages (ekuList cfg.ExtKeyUsages) [] = Except.error e := by
    rw [ekuList, if_neg hne, hsplit]
    exact processEKU_unknown_error pre name post [] hunknown hnoany
  obtain ⟨e, he⟩ := hek
  have h1 := newCVO_fail_of_eku rd cfg e he
  exact ⟨h1, NewCVO_fail_transfer rd (certCfgOfChainCfg cfg) h1⟩

theorem parseOIDArcs_ne_none_iff (l : List String) :
    parseOIDArcs l ≠ none ↔ ∀ c ∈ l, atoi c ≠ none := by
  induction l with
  | nil => simp [parseOIDArcs]
  | cons x xs ih =>
    simp only [parseOIDArcs]
    cases hx : atoi x with
    | none => simp [List.forall_mem_cons, hx]
    | some p =>
      cases hrest : parseOIDArcs xs with
      | none =>
        rw [hrest] at ih
        simp only [List.forall_mem_cons, hx]
        simp only [ne_eq, not_true_eq_false, false_iff] at ih ⊢
        intro hc
        exact ih hc.2
      | some oid =>
        rw [hrest] at ih
        simp only [List.forall_mem_cons, hx]
        simp only [ne_eq, reduceCtorEq, not_false_eq_true, true_iff] at ih ⊢
        exact ⟨trivial, ih⟩

theorem parseOIDs_ne_none_iff (oids : List String) :
    parseOIDs oids ≠ none ↔ ∀ s ∈ oids, ∀ c ∈ goSplit s '.', atoi c ≠ none := by
  induction oids with
  | nil => simp [parseOIDs]
  | cons x xs ih =>
    simp only [parseOIDs]
    cases hx : parseOIDArcs (goSplit x '.') with
    | none =>
      have harc := parseOIDArcs_ne_none_iff (goSplit x '.')
      rw [hx] at harc
      simp only [ne_eq, not_true_eq_false, false_iff] at harc
      simp only [List.forall_mem_cons, ne_eq, not_true_eq_false, false_iff]
      intro hc
      exact harc hc.1
    | some oid =>
      cases hrest : parseOIDs xs with
      | none =>
        rw [hrest] at ih
        simp only [ne_eq, not_true_eq_false, false_iff] at ih
        simp only [List.forall_mem_cons, ne_eq, not_true_eq_false, false_iff]
        intro hc
        exact ih hc.2
      | some ret =>
        rw [hrest] at ih
        have harc := parseOIDArcs_ne_none_iff (goSplit x '.')
        rw [hx] at harc
        simp only [ne_eq, reduceCtorEq, not_false_eq_true, true_iff] at ih harc
        simp only [List.forall_mem_cons, ne_eq, reduceCtorEq, not_false_eq_true, true_iff]
        exact ⟨harc, ih⟩

theorem decodeAll_badB64 (elems : List BodyElem) (h : BodyElem.badB64 ∈ elems) :
    ∃ e, decodeAll elems = Except.error e := by
  induction elems with
  | nil => cases h
  | cons x xs ih =>
    cases x with
    | badB64 => exact ⟨CTError.malformedRequest, rfl⟩
    | wellFormed c =>
      have hxs : BodyElem.badB64 ∈ xs := by
        rcases List.mem_cons.mp h with hx | hxs
        · exact absurd hx (by simp)
        · exact hxs
      obtain ⟨e, he⟩ := ih hxs
      exact ⟨e, by simp [decodeAll, decodeElem, he]⟩
    | badDER =>
      have hxs : BodyElem.badB64 ∈ xs := by
        rcases List.mem_cons.mp h with hx | hxs
        · exact absurd hx (by simp)
        · exact hxs
      obtain ⟨e, he⟩ := ih hxs
      exact ⟨e, by simp [decodeAll, decodeElem, he]⟩

theorem decodeAll_badDER (elems : List BodyElem) (raws : List RawCert)
    (h : decodeAll elems = Except.ok raws) (hm : BodyElem.badDER ∈ elems) :
    RawCert.unparseable ∈ raws := by
  induction elems generalizing raws with
  | nil => cases hm
  | cons x xs ih =>
    cases x with
    | badB64 => simp [decodeAll, decodeElem] at h
    | badDER =>
      simp only [decodeAll, decodeElem] at h
      cases hrest : decodeAll xs with
      | error e => rw [hrest] at h; exact absurd h (by simp)
      | ok rs =>
        rw [hrest] at h
        simp only at h
        cases h
        exact List.mem_cons_self _ _
    | wellFormed c =>
      have hxs : BodyElem.badDER ∈ xs := by
        rcases List.mem_cons.mp hm with hx | hxs
        · exact absurd hx (by simp)
        · exact hxs
      simp only [decodeAll, decodeElem] at h
      cases hrest : decodeAll xs with
      | error e => rw [hrest] at h; exact absurd h (by simp)
      | ok rs =>
        rw [hrest] at h
        simp only at h
        cases h
        exact List.mem_cons_of_mem _ (ih rs hrest hxs)

theorem parseCerts_unparseable (raws : List RawCert) (h : RawCert.unparseable ∈ raws) :
    ∃ e, parseCerts raws = Except.error e := by
  induction raws with
  | nil => cases h
  | cons x xs ih =>
    cases x with
    | unparseable => exact ⟨CTError.malformedChain, rfl⟩
    | parsed c =>
      have hxs : RawCert.unparseable ∈ xs := by
        rcases List.mem_cons.mp h with hx | hxs
        · exact absurd hx (by simp)
        · exact hxs
      obtain ⟨e, he⟩ := ih hxs
      exact ⟨e, by simp [parseCerts, he]⟩

/-!
Concrete instances used by the witnesses and counterexamples below.
-/

/-- A root-file reader that always succeeds, standing for a readable PEM
file of trusted roots. -/
def readRootsOk : ReadRoots := fun _ => Except.ok []

/-- A benign configuration every construction guard accepts. -/
def cfgDefault : ChainValidationConfig :=
  { RootsPEMFile := "roots.pem"
    RejectExpired := false
    RejectUnexpired := false
    ExtKeyUsages := ""
    RejectExtensions := ""
    NotAfterStart := none
    NotAfterLimit := none }

/-- The options cfgDefault constructs under readRootsOk. -/
def optsDefault : ChainValidationOpts :=
  { TrustedRoots := []
    RejectExpired := false
    RejectUnexpired := false
    NotAfterStart := none
    NotAfterLimit := none
    ExtKeyUsages := []
    RejectExtIds := [] }

/-- ExtKeyUsages list naming the unknown usage "Bogus" after "Any". -/
def cfgAnyBogus : ChainValidationConfig := { cfgDefault with ExtKeyUsages := "Any,Bogus" }

/-- ExtKeyUsages list naming only the unknown usage "Bogus". -/
def cfgBogusOnly : ChainValidationConfig := { cfgDefault with ExtKeyUsages := "Bogus" }

/-- Both NotAfter bounds set to the same instant. -/
def cfgEqualBounds : ChainValidationConfig :=
  { cfgDefault with NotAfterStart := some 0, NotAfterLimit := some 0 }

/-- NotAfter limit strictly before the NotAfter start. -/
def cfgBadBounds : ChainValidationConfig :=
  { cfgDefault with NotAfterStart := some 5, NotAfterLimit := some 3 }

/-- A whitespace-padded entry after "Any". -/
def cfgAnySpace : ChainValidationConfig := { cfgDefault with ExtKeyUsages := "Any, ClientAuth" }

/-- A whitespace-padded entry after a known name. -/
def cfgServerSpace : ChainValidationConfig :=
  { cfgDefault with ExtKeyUsages := "ServerAuth, ClientAuth" }

/-- RejectExtensions with a trailing comma, yielding an empty OID. -/
def cfgTrailingComma : ChainValidationConfig := { cfgDefault with RejectExtensions := "1.2.3," }

/-- A leaf carrying the critical CT poison extension. -/
def certPoisoned : Cert := { hasPoison := true, poisonCritical := true }

/-!
The claims.
-/

/-- Claim C1: the two configuration-loading paths, newCertValidationOpts
of ctlog.go and NewCertValidationOpts of the sctfe copy, behave as one
pipeline: on every configuration and every root-file outcome, either both
return an error, or both succeed with equal reject-expired and
reject-unexpired flags, equal NotAfter bounds, equal EKU allowlists and
equal rejected-extension OID lists. -/
theorem claim_c1_config_paths_equivalent (rd : ReadRoots) (cfg : ChainValidationConfig) :
    (exceptOk (newCertValidationOpts rd cfg) = false ∧
     exceptOk (NewCertValidationOpts rd (certCfgOfChainCfg cfg)) = false) ∨
    (∃ a b, newCertValidationOpts rd cfg = Except.ok a ∧
            NewCertValidationOpts rd (certCfgOfChainCfg cfg) = Except.ok b ∧
            optsAgree a b) := by
  have h := cvo_agree_aux rd (certCfgOfChainCfg cfg)
  have hrt : chainCfgOfCertCfg (certCfgOfChainCfg cfg) = cfg := rfl
  rw [hrt] at h
  exact h

/-- Witness for C1 at a concrete configuration. -/
theorem claim_c1_witness :
    (exceptOk (newCertValidationOpts readRootsOk cfgDefault) = false ∧
     exceptOk (NewCertValidationOpts readRootsOk (certCfgOfChainCfg cfgDefault)) = false) ∨
    (∃ a b, newCertValidationOpts readRootsOk cfgDefault = Except.ok a ∧
            NewCertValidationOpts readRootsOk (certCfgOfChainCfg cfgDefault) = Except.ok b ∧
            optsAgree a b) :=
  claim_c1_config_paths_equivalent readRootsOk cfgDefault

/-- Claim C2 counterexample: the comma-separated ExtKeyUsages list
"Any,Bogus" contains the unknown name "Bogus", yet construction succeeds
on both paths, because the loop breaks at "Any" before reaching it.  This
refutes the claim that every list containing an unknown name fails. -/
theorem claim_c2_counterexample :
    "Bogus" ∈ goSplit cfgAnyBogus.ExtKeyUsages ',' ∧
    stringToKeyUsage ("Bogus") = none ∧
    exceptOk (newCertValidationOpts readRootsOk cfgAnyBogus) = true ∧
    exceptOk (NewCertValidationOpts readRootsOk (certCfgOfChainCfg cfgAnyBogus)) = true :=
  ⟨by decide, rfl, by decide, by decide⟩

/-- Claim C2 (amended): for every non-empty ExtKeyUsages string whose
comma-separated list contains an unknown name with no "Any" entry before
it, construction of the validation options fails, on both paths. -/
theorem claim_c2_unknown_eku_rejected (rd : ReadRoots) (cfg : ChainValidationConfig)
    (pre post : List String) (name : String)
    (hne : cfg.ExtKeyUsages ≠ "")
    (hsplit : goSplit cfg.ExtKeyUsages ',' = pre ++ name :: post)
    (hunknown : stringToKeyUsage name = none)
    (hnoany : "Any" ∉ pre) :
    exceptOk (newCertValidationOpts rd cfg) = false ∧
    exceptOk (NewCertValidationOpts rd (certCfgOfChainCfg cfg)) = false :=
  cvo_fail_of_unknown_entry rd cfg pre post name hne hsplit hunknown hnoany

/-- Witness for the amended C2 at the one-entry list "Bogus". -/
theorem claim_c2_witness :
    exceptOk (newCertValidationOpts readRootsOk cfgBogusOnly) = false ∧
    exceptOk (NewCertValidationOpts readRootsOk (certCfgOfChainCfg cfgBogusOnly)) = false :=
  claim_c2_unknown_eku_rejected readRootsOk cfgBogusOnly [] [] "Bogus"
    (by decide) (by decide) rfl (by decide)

/-- Claim C3 counterexample: with both NotAfter bounds set and equal the
claim demands rejection, but construction succeeds on both paths: the
code only rejects a limit strictly before the start. -/
theorem claim_c3_counterexample :
    cfgEqualBounds.NotAfterStart = some 0 ∧ cfgEqualBounds.NotAfterLimit = some 0 ∧
    exceptOk (newCertValidationOpts readRootsOk cfgEqualBounds) = true ∧
    exceptOk (NewCertValidationOpts readRootsOk (certCfgOfChainCfg cfgEqualBounds)) = true :=
  ⟨rfl, rfl, by decide, by decide⟩

/-- Claim C3 (amended): with both NotAfter bounds set, construction
succeeds only when start ≤ limit, and a configuration with limit < start
is rejected on both paths; equal bounds are accepted. -/
theorem claim_c3_notafter_interval (rd : ReadRoots) (cfg : ChainValidationConfig)
    (s l : Time) (hs : cfg.NotAfterStart = some s) (hl : cfg.NotAfterLimit = some l) :
    (∀ v, newCertValidationOpts rd cfg = Except.ok v → s ≤ l) ∧
    (l < s →
      exceptOk (newCertValidationOpts rd cfg) = false ∧
      exceptOk (NewCertValidationOpts rd (certCfgOfChainCfg cfg)) = false) := by
  constructor
  · intro v hv
    have hint := (newCVO_ok_inv rd cfg v hv).2.2.2.2.2.1
    rw [hs, hl] at hint
    simp only [intervalBad, decide_eq_false_iff_not, not_lt] at hint
    exact hint
  · intro hls
    have hb : intervalBad cfg.NotAfterStart cfg.NotAfterLimit = true := by
      rw [hs, hl]
      simpa [intervalBad] using hls
    have h1 := newCVO_fail_of_interval rd cfg hb
    exact ⟨h1, NewCVO_fail_transfer rd (certCfgOfChainCfg cfg) h1⟩

/-- Witness for the amended C3 at bounds 5 and 3. -/
theorem claim_c3_witness :
    (∀ v, newCertValidationOpts readRootsOk cfgBadBounds = Except.ok v → (5 : Time) ≤ 3) ∧
    ((3 : Time) < 5 →
      exceptOk (newCertValidationOpts readRootsOk cfgBadBounds) = false ∧
      exceptOk (NewCertValidationOpts readRootsOk (certCfgOfChainCfg cfgBadBounds)) = false) :=
  claim_c3_notafter_interval readRootsOk cfgBadBounds 5 3 rfl rfl

/-- Claim C4: whenever "Any" appears among the comma-separated
ExtKeyUsages entries, every successfully constructed options record
carries an empty EKU allowlist, on both paths. -/
theorem claim_c4_any_disables_eku (rd : ReadRoots) (cfg : ChainValidationConfig)
    (hmem : "Any" ∈ goSplit cfg.ExtKeyUsages ',') :
    (∀ v, newCertValidationOpts rd cfg = Except.ok v → v.ExtKeyUsages = []) ∧
    (∀ b, NewCertValidationOpts rd (certCfgOfChainCfg cfg) = Except.ok b →
      b.extKeyUsages = []) := by
  have hne : cfg.ExtKeyUsages ≠ "" := by
    intro h0
    rw [h0] at hmem
    exact absurd hmem (by decide)
  have hmain : ∀ v, newCertValidationOpts rd cfg = Except.ok v → v.ExtKeyUsages = [] := by
    intro v hv
    have hek := (newCVO_ok_inv rd cfg v hv).2.2.2.2.2.2.1
    refine processEKU_any_nil _ [] _ ?_ hek
    rw [ekuList, if_neg hne]
    exact hmem
  refine ⟨hmain, fun b hb => ?_⟩
  obtain ⟨a, ha, hag⟩ := NewCVO_ok_transfer rd (certCfgOfChainCfg cfg) b hb
  rw [← hag.2.2.2.2.1]
  exact hmain a ha

/-- Witness for C4 at the list "Any,Bogus". -/
theorem claim_c4_witness :
    (∀ v, newCertValidationOpts readRootsOk cfgAnyBogus = Except.ok v →
      v.ExtKeyUsages = []) ∧
    (∀ b, NewCertValidationOpts readRootsOk (certCfgOfChainCfg cfgAnyBogus) = Except.ok b →
      b.extKeyUsages = []) :=
  claim_c4_any_disables_eku readRootsOk cfgAnyBogus (by decide)

/-- Claim C5: log construction fails whenever the origin is empty, the
signer is absent, or the signer key is not ECDSA; with a non-empty
origin, an ECDSA signer and a validation configuration that constructs,
it succeeds, on both construction paths. -/
theorem claim_c5_log_construction (rd : ReadRoots) (origin : String)
    (signer : Option Signer) (cfg : ChainValidationConfig) (cfg2 : CertValidationConfig) :
    (origin = "" →
      exceptOk (newLog rd origin signer cfg) = false ∧
      exceptOk (NewLog rd origin signer cfg2) = false) ∧
    (signer = none →
      exceptOk (newLog rd origin signer cfg) = false ∧
      exceptOk (NewLog rd origin signer cfg2) = false) ∧
    (∀ s, signer = some s → s.pub ≠ PublicKey.ecdsa →
      exceptOk (newLog rd origin signer cfg) = false ∧
      exceptOk (NewLog rd origin signer cfg2) = false) ∧
    (origin ≠ "" → ∀ v, newCertValidationOpts rd cfg = Except.ok v →
      newLog rd origin (some { pub := PublicKey.ecdsa }) cfg =
        Except.ok { Origin := origin, ChainValidationOpts := v }) ∧
    (origin ≠ "" → ∀ b, NewCertValidationOpts rd cfg2 = Except.ok b →
      NewLog rd origin (some { pub := PublicKey.ecdsa }) cfg2 =
        Except.ok { Origin := origin, CertValidationOpts := b }) := by
  refine ⟨?_, ?_, ?_, ?_, ?_⟩
  · intro h
    subst h
    exact ⟨rfl, rfl⟩
  · intro h
    subst h
    by_cases ho : origin = ""
    · simp [newLog, NewLog, ho, exceptOk]
    · simp [newLog, NewLog, ho, exceptOk]
  · intro s hs hpub
    subst hs
    by_cases ho : origin = ""
    · simp [newLog, NewLog, ho, exceptOk]
    · obtain ⟨p⟩ := s
      cases p with
      | ecdsa => exact absurd rfl hpub
      | rsa => simp [newLog, NewLog, ho, exceptOk]
      | ed25519 => simp [newLog, NewLog, ho, exceptOk]
  · intro ho v hv
    simp [newLog, ho, hv]
  · intro ho b hb
    simp [NewLog, ho, hb]

/-- Witness for C5: the concrete success case with an ECDSA signer. -/
theorem claim_c5_witness :
    newLog readRootsOk ("example.com") (some { pub := PublicKey.ecdsa }) cfgDefault =
      Except.ok { Origin := "example.com", ChainValidationOpts := optsDefault } :=
  (claim_c5_log_construction readRootsOk ("example.com")
      (some { pub := PublicKey.ecdsa }) cfgDefault (certCfgOfChainCfg cfgDefault)).2.2.2.1
    (by decide) optsDefault rfl

/-- Claim C6: a configuration with RejectExpired and RejectUnexpired both
set is rejected at construction, and every successfully constructed
options record has not both flags set, on both paths. -/
theorem claim_c6_expiry_flags_invariant (rd : ReadRoots) (cfg : ChainValidationConfig) :
    (cfg.RejectExpired = true → cfg.RejectUnexpired = true →
      exceptOk (newCertValidationOpts rd cfg) = false ∧
      exceptOk (NewCertValidationOpts rd (certCfgOfChainCfg cfg)) = false) ∧
    (∀ v, newCertValidationOpts rd cfg = Except.ok v →
      ¬(v.RejectExpired = true ∧ v.RejectUnexpired = true)) ∧
    (∀ b, NewCertValidationOpts rd (certCfgOfChainCfg cfg) = Except.ok b →
      ¬(b.rejectExpired = true ∧ b.rejectUnexpired = true)) := by
  have hmain : ∀ v, newCertValidationOpts rd cfg = Except.ok v →
      ¬(v.RejectExpired = true ∧ v.RejectUnexpired = true) := by
    intro v hv hc
    have hinv := newCVO_ok_inv rd cfg v hv
    have hfe := hinv.1
    have hfu := hinv.2.1
    have hff := hinv.2.2.2.2.1
    rw [← hfe, ← hfu, hc.1, hc.2] at hff
    simp at hff
  refine ⟨?_, hmain, ?_⟩
  · intro h1 h2
    have hf := newCVO_fail_of_flags rd cfg h1 h2
    exact ⟨hf, NewCVO_fail_transfer rd (certCfgOfChainCfg cfg) hf⟩
  · intro b hb hc
    obtain ⟨a, ha, hag⟩ := NewCVO_ok_transfer rd (certCfgOfChainCfg cfg) b hb
    exact hmain a ha ⟨hag.1.trans hc.1, hag.2.1.trans hc.2⟩

/-- Witness for C6: both flags set is rejected concretely. -/
theorem claim_c6_witness :
    exceptOk (newCertValidationOpts readRootsOk
      { cfgDefault with RejectExpired := true, RejectUnexpired := true }) = false ∧
    exceptOk (NewCertValidationOpts readRootsOk (certCfgOfChainCfg
      { cfgDefault with RejectExpired := true, RejectUnexpired := true })) = false :=
  (claim_c6_expiry_flags_invariant readRootsOk
      { cfgDefault with RejectExpired := true, RejectUnexpired := true }).1 rfl rfl

/-- Claim C7: on a submission whose chain validates structurally, an
add-chain request with a poisoned leaf and an add-pre-chain request with
an unpoisoned leaf both answer 400, with no SCT and no append. -/
theorem claim_c7_entry_type_rejection (σ : Type)
    (buildChain : List Cert → Except CTError (List Cert))
    (appendAndSign : List Cert → σ) (body : Body) (raws : List RawCert)
    (chain : List Cert) (leaf : Cert) (rest : List Cert)
    (hparse : parseBody body = Except.ok raws)
    (hcerts : parseCerts raws = Except.ok (leaf :: rest))
    (hbuild : buildChain (leaf :: rest) = Except.ok chain) :
    (leaf.hasPoison = true →
      handleSubmission buildChain appendAndSign false body =
        { status := 400, sct := none, appended := false }) ∧
    (leaf.hasPoison = false →
      handleSubmission buildChain appendAndSign true body =
        { status := 400, sct := none, appended := false }) := by
  constructor
  · intro hp
    unfold handleSubmission
    rw [hparse]
    unfold validateChain
    dsimp only
    rw [hcerts]
    dsimp only
    rw [hbuild]
    simp [checkEntryType, hp]
  · intro hp
    unfold handleSubmission
    rw [hparse]
    unfold validateChain
    dsimp only
    rw [hcerts]
    dsimp only
    rw [hbuild]
    simp [checkEntryType, hp]

/-- Witness for C7: a poisoned leaf submitted to add-chain. -/
theorem claim_c7_witness :
    (certPoisoned.hasPoison = true →
      handleSubmission (fun cs => Except.ok cs) (fun _ => (0 : Nat)) false
          (Body.chainReq [BodyElem.wellFormed certPoisoned]) =
        { status := 400, sct := none, appended := false }) ∧
    (certPoisoned.hasPoison = false →
      handleSubmission (fun cs => Except.ok cs) (fun _ => (0 : Nat)) true
          (Body.chainReq [BodyElem.wellFormed certPoisoned]) =
        { status := 400, sct := none, appended := false }) :=
  claim_c7_entry_type_rejection Nat (fun cs => Except.ok cs) (fun _ => (0 : Nat))
    (Body.chainReq [BodyElem.wellFormed certPoisoned]) [RawCert.parsed certPoisoned]
    [certPoisoned] certPoisoned [] rfl rfl rfl

/-- Claim C8: a POST body that is not a well-formed JSON object, or whose
chain array is empty or contains an element that is not valid base64 DER,
answers 400 and causes no append and no SCT, on both endpoints. -/
theorem claim_c8_malformed_requests (σ : Type)
    (buildChain : List Cert → Except CTError (List Cert))
    (appendAndSign : List Cert → σ) (isPrecert : Bool) (body : Body)
    (hbad : body = Body.malformedJSON ∨ body = Body.chainReq [] ∨
            ∃ elems, body = Body.chainReq elems ∧
              (BodyElem.badB64 ∈ elems ∨ BodyElem.badDER ∈ elems)) :
    handleSubmission buildChain appendAndSign isPrecert body =
      { status := 400, sct := none, appended := false } := by
  rcases hbad with h | h | ⟨elems, hb, hmem⟩
  · subst h
    rfl
  · subst h
    rfl
  · subst hb
    by_cases hnil : elems = []
    · subst hnil
      rfl
    · unfold handleSubmission parseBody
      dsimp only
      rw [if_neg hnil]
      rcases hmem with hb64 | hder
      · obtain ⟨e, he⟩ := decodeAll_badB64 elems hb64
        rw [he]
      · cases hda : decodeAll elems with
        | error e => rfl
        | ok raws =>
          dsimp only
          unfold validateChain
          obtain ⟨e, he⟩ := parseCerts_unparseable raws (decodeAll_badDER elems raws hda hder)
          rw [he]

/-- Witness for C8 at a malformed JSON body. -/
theorem claim_c8_witness :
    handleSubmission (fun cs => Except.ok cs) (fun _ => (0 : Nat)) false Body.malformedJSON =
      { status := 400, sct := none, appended := false } :=
  claim_c8_malformed_requests Nat (fun cs => Except.ok cs) (fun _ => (0 : Nat)) false
    Body.malformedJSON (Or.inl rfl)

/-- Claim C9: parseOIDs succeeds exactly when every dot-separated arc of
every input string parses with the embedded strconv.Atoi; hence a
negative arc as in "1.-2.3" and a single arc as in "5" are accepted,
while an empty arc anywhere in the split RejectExtensions string makes
construction of the validation options fail on both paths. -/
theorem claim_c9_parseOIDs_atoi (oids : List String) (rd : ReadRoots)
    (cfg : ChainValidationConfig) :
    (parseOIDs oids ≠ none ↔ ∀ s ∈ oids, ∀ c ∈ goSplit s '.', atoi c ≠ none) ∧
    parseOIDs ["1.-2.3"] = some [[1, -2, 3]] ∧
    parseOIDs ["5"] = some [[5]] ∧
    (cfg.RejectExtensions ≠ "" →
      (∃ s ∈ goSplit cfg.RejectExtensions ',', "" ∈ goSplit s '.') →
      exceptOk (newCertValidationOpts rd cfg) = false ∧
      exceptOk (NewCertValidationOpts rd (certCfgOfChainCfg cfg)) = false) := by
  refine ⟨parseOIDs_ne_none_iff oids, by decide, by decide, ?_⟩
  intro hne hempty
  have hnone : parseOIDs (goSplit cfg.RejectExtensions ',') = none := by
    by_contra hc
    obtain ⟨s, hsmem, hcmem⟩ := hempty
    have := (parseOIDs_ne_none_iff (goSplit cfg.RejectExtensions ',')).mp hc s hsmem ("") hcmem
    exact this rfl
  have h1 := newCVO_fail_of_oids rd cfg hne hnone
  exact ⟨h1, NewCVO_fail_transfer rd (certCfgOfChainCfg cfg) h1⟩

/-- Witness for C9: the trailing comma in "1.2.3," yields an empty arc
and construction fails concretely. -/
theorem claim_c9_witness :
    exceptOk (newCertValidationOpts readRootsOk cfgTrailingComma) = false ∧
    exceptOk (NewCertValidationOpts readRootsOk (certCfgOfChainCfg cfgTrailingComma)) = false :=
  (claim_c9_parseOIDs_atoi [] readRootsOk cfgTrailingComma).2.2.2 (by decide) (by decide)

/-- Claim C10 counterexample: in "Any, ClientAuth" the entry
" ClientAuth" carries surrounding whitespace and its trimmed name is
known, yet construction succeeds on both paths because the loop breaks at
"Any".  This refutes the claim that every list with a whitespace-padded
entry fails. -/
theorem claim_c10_counterexample :
    " ClientAuth" ∈ goSplit cfgAnySpace.ExtKeyUsages ',' ∧
    hasOuterWhitespace (" ClientAuth") = true ∧
    stringToKeyUsage ("ClientAuth") = some ExtKeyUsage.ClientAuth ∧
    stringToKeyUsage ("Any") = some ExtKeyUsage.Any ∧
    exceptOk (newCertValidationOpts readRootsOk cfgAnySpace) = true ∧
    exceptOk (NewCertValidationOpts readRootsOk (certCfgOfChainCfg cfgAnySpace)) = true :=
  ⟨by decide, by decide, rfl, rfl, by decide, by decide⟩

/-- Claim C10 (amended): EKU names are matched verbatim after splitting
on "," with no whitespace trimming: whenever some entry carries
surrounding whitespace and no "Any" entry precedes it, construction fails
with an unknown-extended-key-usage error, on both paths. -/
theorem claim_c10_whitespace_rejected (rd : ReadRoots) (cfg : ChainValidationConfig)
    (pre post : List String) (entry : String)
    (hne : cfg.ExtKeyUsages ≠ "")
    (hsplit : goSplit cfg.ExtKeyUsages ',' = pre ++ entry :: post)
    (hws : hasOuterWhitespace entry = true)
    (hnoany : "Any" ∉ pre) :
    exceptOk (newCertValidationOpts rd cfg) = false ∧
    exceptOk (NewCertValidationOpts rd (certCfgOfChainCfg cfg)) = false :=
  cvo_fail_of_unknown_entry rd cfg pre post entry hne hsplit
    (hasOuterWhitespace_unknown entry hws) hnoany

/-- Witness for the amended C10 at "ServerAuth, ClientAuth". -/
theorem claim_c10_witness :
    exceptOk (newCertValidationOpts readRootsOk cfgServerSpace) = false ∧
    exceptOk (NewCertValidationOpts readRootsOk (certCfgOfChainCfg cfgServerSpace)) = false :=
  claim_c10_whitespace_rejected readRootsOk cfgServerSpace ["ServerAuth"] [] " ClientAuth"
    (by decide) (by decide) (by decide) (by decide)

end StaticCT
